import Mathlib

/-!
# Verification of sal's incremental indexing pipeline and tool-serving layer

Shallow embedding of the repository's core: the metadata-card cache with
mtime-based staleness (`src/sal.py` `_is_stale`, `_index_one`,
`ensure_indexed`, `read_document`) and the package variant
(`src/sal/core.py` `_index_one`, `ensure_indexed`; `src/sal/mcp.py`
`Read`, `Search`).

Modelling conventions:
* Python `str` content is modelled as `List Char` (`Text`), so that
  character-level truncation (`content[:15000]`, `content[:8000]`) is exact.
  Paths and map keys are Lean `String`s.
* `st_mtime` is modelled as a natural-number timestamp; only its order
  matters to the code.
* The filesystem card cache (`.sal/index/<name>.json`) is an association
  list keyed by card file name; `cacheStore` models
  `card_path.write_text(json.dumps(card))` (a JSON round-trip is the
  identity on the values involved), and a `CacheEntry.corrupt` entry models
  a card file whose text `json.loads` rejects.
* The LLM collaborator plus JSON decoding is an opaque `Oracle` from the
  sent message to `Except Unit Card`; `Except.error` covers both API
  failures and `json.loads` failures on the reply (fence-stripping happens
  before decoding and is folded into the oracle, no claim touches it).
* `HAS_PDF` is modelled as `true` (the `fitz` import succeeded); `print`
  logging is not modelled.
-/

namespace Sal

/-- Python `str` document content, one `Char` per code point. -/
abbrev Text := List Char

/-- A located document: `f.name`, `f.relative_to(ws())`, `f.stat().st_mtime`,
and the text `_read_file(f)` extracts (the content extractor is the opaque
collaborator of the spec, so its output is part of the document model). -/
structure Document where
  name : String
  relPath : String
  mtime : Nat
  content : Text
deriving DecidableEq

/-- A parsed metadata card: the JSON fields other than `path` / `_mtime` are
opaque (`payload`); `path` and `mtime` (the `_mtime` key) are `none` when the
JSON object lacks them. -/
structure Card where
  payload : String
  path : Option String
  mtime : Option Nat
deriving DecidableEq

/-- A persisted card file: either it parses to a `Card`, or `json.loads` on
its text raises (`corrupt`). -/
inductive CacheEntry where
  | ok (c : Card)
  | corrupt
deriving DecidableEq

/-- The `.sal/index/` directory: card file name ↦ persisted card file. -/
abbrev Cache := List (String × CacheEntry)

def cacheLookup : Cache → String → Option CacheEntry
  | [], _ => none
  | (k, e) :: rest, key => if k = key then some e else cacheLookup rest key

/-- Model of `card_path.write_text(json.dumps(card, indent=2))`: the entry for
`k` is created or overwritten. -/
def cacheStore (k : String) (e : CacheEntry) (c : Cache) : Cache :=
  (k, e) :: c

/-- sal.py and core.py key cards by `_index_dir() / (resource.name + ".json")`:
cards are keyed by file name, not by relative path. -/
def cardName (d : Document) : String :=
  d.name ++ ".json"

/-- The LLM call together with JSON decoding of its (fence-stripped) reply:
message sent ↦ parsed card, or a failure (API error / non-JSON reply). -/
abbrev Oracle := Text → Except Unit Card

/-- sal.py `_is_stale(resource, card)`: missing card file ↦ stale; parse
failure ↦ stale; otherwise `resource.stat().st_mtime > cached.get("_mtime", 0)`. -/
def _is_stale (d : Document) (cache : Cache) : Bool :=
  match cacheLookup cache (cardName d) with
  | none => true
  | some .corrupt => true
  | some (.ok c) => decide (c.mtime.getD 0 < d.mtime)

/-- sal.py line 180: the marker appended when the synthesis input is cut. -/
def SYNTH_TRUNC_MARKER : Text :=
  "\n…[truncated]".data

/-- sal.py `_index_one` lines 179-180: `content[:15000] + "\n…[truncated]"`
when `len(content) > 15000`, else the content unchanged. -/
def synthInput (content : Text) : Text :=
  if 15000 < content.length then content.take 15000 ++ SYNTH_TRUNC_MARKER
  else content

/-- sal.py `_index_one` line 186: the user message
`f"Document path: {resource.name}\n\n{content}"`. -/
def synthMessage (d : Document) : Text :=
  ("Document path: " ++ d.name ++ "\n\n").data ++ synthInput d.content

/-- core.py `_index_one` line 42: `_read_file(f)[:15000]` — capped, no marker. -/
def synthInputCore (content : Text) : Text :=
  content.take 15000

/-- core.py `_index_one` line 44: the user message `f"path: {f.name}\n\n{content}"`. -/
def synthMessageCore (d : Document) : Text :=
  ("path: " ++ d.name ++ "\n\n").data ++ synthInputCore d.content

/-- sal.py `_index_one`: call the collaborator on the truncated content, then
inject `card["path"] = str(resource.relative_to(ws()))` and
`card["_mtime"] = resource.stat().st_mtime`. -/
def salIndexOne (oracle : Oracle) (d : Document) : Except Unit Card :=
  match oracle (synthMessage d) with
  | .error e => .error e
  | .ok c => .ok { c with path := some d.relPath, mtime := some d.mtime }

/-- core.py `_index_one`: call the collaborator on the capped content, then
inject only `card["path"] = str(f.relative_to(WS))`. -/
def coreIndexOne (oracle : Oracle) (d : Document) : Except Unit Card :=
  match oracle (synthMessageCore d) with
  | .error e => .error e
  | .ok c => .ok { c with path := some d.relPath }

/-- What one pass of sal.py `ensure_indexed` produces: the returned card
list, the card-cache directory afterwards, and how many synthesis
(`_index_one`) calls were made. -/
structure SalRunResult where
  cards : List Card
  cache : Cache
  synthCalls : Nat
deriving DecidableEq

/-- Model of `json.loads(card_path.read_text())` on the not-stale branch of
sal.py `ensure_indexed` (line 227): a not-stale entry always parses, since
`_is_stale` already read it; the fallback card is unreachable there. -/
def loadCached (cache : Cache) (k : String) : Card :=
  match cacheLookup cache k with
  | some (.ok c) => c
  | _ => { payload := "", path := none, mtime := none }

/-- sal.py `ensure_indexed` lines 214-230, over the located files: stale ⇒
try `_index_one`; on success store and collect the card, on failure print and
`continue` (the document is skipped); not stale ⇒ load the cached card. -/
def ensureIndexedSal (oracle : Oracle) : List Document → Cache → SalRunResult
  | [], cache => { cards := [], cache := cache, synthCalls := 0 }
  | d :: ds, cache =>
    if _is_stale d cache then
      match salIndexOne oracle d with
      | .error _ =>
        let r := ensureIndexedSal oracle ds cache
        { cards := r.cards, cache := r.cache, synthCalls := r.synthCalls + 1 }
      | .ok card =>
        let r := ensureIndexedSal oracle ds (cacheStore (cardName d) (.ok card) cache)
        { cards := card :: r.cards, cache := r.cache, synthCalls := r.synthCalls + 1 }
    else
      let r := ensureIndexedSal oracle ds cache
      { cards := loadCached cache (cardName d) :: r.cards, cache := r.cache,
        synthCalls := r.synthCalls }

/-- The fts5 `docs` table of core.py: rows `(path, body)`, in insertion order. -/
abbrev Db := List (String × Text)

def dbLookup : Db → String → Option Text
  | [], _ => none
  | (k, b) :: rest, key => if k = key then some b else dbLookup rest key

/-- Whether `db.execute("SELECT 1 FROM docs WHERE path=?", ...).fetchone()` is truthy. -/
def dbContains (db : Db) (p : String) : Bool :=
  (dbLookup db p).isSome

/-- core.py `ensure_indexed` lines 70-72: `INSERT` only when the `SELECT 1`
probe found no row for the path. -/
def dbInsertIfAbsent (p : String) (body : Text) (db : Db) : Db :=
  if dbContains db p then db else db ++ [(p, body)]

/-- What one successful pass of core.py `ensure_indexed` produces. -/
structure CoreRunState where
  cards : List Card
  cache : Cache
  db : Db
  synthCalls : Nat
deriving DecidableEq

/-- core.py `ensure_indexed` lines 54-75: per document, if no card file
exists, synthesize and store (an exception from `_index_one` — e.g. a JSON
decode failure — is caught nowhere and aborts the whole pass, as does
`json.loads` on a corrupt cached card); then insert the extracted body into
the fts5 table only if no row for the path exists. -/
def ensureIndexedCore (oracle : Oracle) :
    List Document → Cache → Db → Except Unit CoreRunState
  | [], cache, db => .ok { cards := [], cache := cache, db := db, synthCalls := 0 }
  | d :: ds, cache, db =>
    match cacheLookup cache (cardName d) with
    | some .corrupt => .error ()
    | some (.ok c) =>
      match ensureIndexedCore oracle ds cache (dbInsertIfAbsent d.relPath d.content db) with
      | .error e => .error e
      | .ok r => .ok { cards := c :: r.cards, cache := r.cache, db := r.db,
                       synthCalls := r.synthCalls }
    | none =>
      match coreIndexOne oracle d with
      | .error _ => .error ()
      | .ok card =>
        match ensureIndexedCore oracle ds (cacheStore (cardName d) (.ok card) cache)
            (dbInsertIfAbsent d.relPath d.content db) with
        | .error e => .error e
        | .ok r => .ok { cards := card :: r.cards, cache := r.cache, db := r.db,
                         synthCalls := r.synthCalls + 1 }

/-! ## The tool-serving layer (sal.py tools and sal/mcp.py) -/

/-- A file on disk as the Read tools see it: whether its suffix is `.pdf`,
its per-page extracted text (PDFs), and its raw text (other types). -/
structure FileEntry where
  isPdf : Bool
  pages : List Text
  raw : Text
deriving DecidableEq

/-- Model of `_read_file`: for a PDF, `"\n\n".join(page.get_text() for page in doc)`;
otherwise `path.read_text(errors="replace")`. -/
def extractText (f : FileEntry) : Text :=
  if f.isPdf then List.intercalate "\n\n".data f.pages else f.raw

/-- A tool result: `{"error": msg}` or `{"path": path, "content": content}`. -/
inductive ReadResult where
  | err (msg : Text)
  | ok (path : String) (content : Text)
deriving DecidableEq

/-- sal.py line 259: the 8,000-character truncation marker of `read_document`. -/
def READ_TRUNC_MARKER : Text :=
  "\n…[truncated — use page parameter to read more]".data

/-- mcp.py line 39: the 8,000-character truncation marker of `Read`. -/
def MCP_READ_TRUNC_MARKER : Text :=
  "\n…[truncated — specify page for more]".data

/-- Returns `content[:8000] + marker` when `len(content) > 8000`, else unchanged
(sal.py lines 258-259, mcp.py lines 38-39). -/
def truncRead (marker : Text) (content : Text) : Text :=
  if 8000 < content.length then content.take 8000 ++ marker else content

/-- sal.py line 254: `f"Page {page} out of range (doc has {len(doc)} pages)"`. -/
def salPageErr (p : Int) (pageCount : Nat) : Text :=
  ("Page " ++ toString p ++ " out of range (doc has " ++ toString pageCount
    ++ " pages)").data

/-- mcp.py line 30: `f"Page {page} out of range"` — the page count is absent. -/
def mcpPageErr (p : Int) : Text :=
  ("Page " ++ toString p ++ " out of range").data

/-- sal.py `read_document(path, page)` lines 247-260, with `HAS_PDF` true and
the workspace modelled as `fs : path ↦ file`.  A `page` on a PDF is
0-indexed into the page list, bounds-checked first; everything else reads the
whole file; the chosen content then passes through the 8,000-char truncation. -/
def readDocumentSal (fs : String → Option FileEntry) (path : String)
    (page : Option Int) : ReadResult :=
  match fs path with
  | none => .err ("Not found: " ++ path).data
  | some f =>
    match page, f.isPdf with
    | some p, true =>
      if 0 ≤ p ∧ p < (f.pages.length : Int) then
        .ok path (truncRead READ_TRUNC_MARKER (f.pages.getD p.toNat []))
      else
        .err (salPageErr p f.pages.length)
    | _, _ => .ok path (truncRead READ_TRUNC_MARKER (extractText f))

/-- mcp.py `Read` lines 33-37, non-PDF-page branch: `SELECT body FROM docs
WHERE path=?`, falling back to `_read_file(f)` when no row exists (for
`f = WS / path`, the row key `str(f.relative_to(WS))` equals `path`). -/
def mcpBody (db : Db) (path : String) (f : FileEntry) : Text :=
  match dbLookup db path with
  | some b => b
  | none => extractText f

/-- mcp.py `Read(path, page)` lines 21-40: like `read_document`, but the
whole-file content comes from the fts5 body (falling back to re-extraction)
and the out-of-range message does not include the page count. -/
def readMcp (fs : String → Option FileEntry) (db : Db) (path : String)
    (page : Option Int) : ReadResult :=
  match fs path with
  | none => .err ("Not found: " ++ path).data
  | some f =>
    match page, f.isPdf with
    | some p, true =>
      if 0 ≤ p ∧ p < (f.pages.length : Int) then
        .ok path (truncRead MCP_READ_TRUNC_MARKER (f.pages.getD p.toNat []))
      else
        .err (mcpPageErr p)
    | _, _ => .ok path (truncRead MCP_READ_TRUNC_MARKER (mcpBody db path f))

/-- The JSON object mcp.py `Search` returns: `{"query", "results", "error"?}`,
a result row being `(path, snippet)`. -/
structure SearchResponse where
  query : String
  results : List (String × String)
  error : Option String
deriving DecidableEq

/-- The fts5 `MATCH ... ORDER BY rank LIMIT ?` execution: rows, or the
`sqlite3.OperationalError` a syntactically malformed query raises. -/
abbrev SearchBackend := String → Nat → Except Unit (List (String × String))

/-- mcp.py `Search(query, max_results)` lines 43-57: run the backend query;
an `OperationalError` is caught and surfaced as
`{"query": query, "results": [], "error": "invalid query syntax"}`. -/
def searchMcp (backend : SearchBackend) (query : String) (maxResults : Nat) :
    SearchResponse :=
  match backend query maxResults with
  | .error _ => { query := query, results := [], error := some "invalid query syntax" }
  | .ok rows => { query := query, results := rows, error := none }

/-! ## Concrete fixtures, used by witnesses and counterexamples -/

/-- A fixed parsed collaborator reply with no `path` / `_mtime` of its own. -/
def cardP : Card :=
  { payload := "P", path := none, mtime := none }

/-- A collaborator that always replies with `cardP`. -/
def oracleOkP : Oracle := fun _ => .ok cardP

/-- A one-file workspace: `a.txt`, mtime 1. -/
def docA : Document :=
  { name := "a.txt", relPath := "a.txt", mtime := 1, content := "hi".data }

/-- Under `resources/`, `a/x.txt` (mtime 1): sal.py's recursive locator finds
it together with `b/x.txt`, and both map to the card file `x.txt.json`. -/
def docColA : Document :=
  { name := "x.txt", relPath := "resources/a/x.txt", mtime := 1, content := "p".data }

/-- Under `resources/`, `b/x.txt` (mtime 2), colliding with `docColA` on
card file name. -/
def docColB : Document :=
  { name := "x.txt", relPath := "resources/b/x.txt", mtime := 2, content := "q".data }

/-- A document whose synthesis will fail (the collaborator returns non-JSON). -/
def dBad : Document :=
  { name := "bad.txt", relPath := "bad.txt", mtime := 1, content := "x".data }

/-- A document whose synthesis succeeds. -/
def dGood : Document :=
  { name := "good.txt", relPath := "good.txt", mtime := 1, content := "y".data }

/-- A collaborator whose reply for `dBad` (as core.py sends it) fails JSON
decoding, and succeeds for every other message. -/
def oracleFailBad : Oracle := fun t =>
  if t = synthMessageCore dBad then .error () else .ok cardP

/-- A collaborator whose reply for `dBad` (as sal.py sends it) fails JSON
decoding, and succeeds for every other message. -/
def oracleFailBadSal : Oracle := fun t =>
  if t = synthMessage dBad then .error () else .ok cardP

/-- A cached card for `docA` that parses but has no `_mtime` key. -/
def cardNoMtime : Card :=
  { payload := "P", path := some "a.txt", mtime := none }

/-- An index directory holding only `cardNoMtime` for `a.txt`. -/
def cacheNoMtime : Cache :=
  [("a.txt.json", CacheEntry.ok cardNoMtime)]

/-- A search backend that raises `sqlite3.OperationalError` on every query. -/
def badBackend : SearchBackend := fun _ _ => .error ()

/-- A small non-PDF file. -/
def fTxt : FileEntry :=
  { isPdf := false, pages := [], raw := "hello".data }

/-- A workspace containing only `doc.txt` ↦ `fTxt`. -/
def fsTxt : String → Option FileEntry := fun s =>
  if s = "doc.txt" then some fTxt else none

/-- A two-page PDF. -/
def fPdf2 : FileEntry :=
  { isPdf := true, pages := ["alpha".data, "beta".data], raw := [] }

/-- A workspace containing only `doc.pdf` ↦ `fPdf2`. -/
def fsPdf : String → Option FileEntry := fun s =>
  if s = "doc.pdf" then some fPdf2 else none

/-- The card core.py's `_index_one` produces for `docA` from `cardP`. -/
def coreCardA : Card :=
  { payload := "P", path := some "a.txt", mtime := none }

/-- A pre-existing fts5 row, present before the pass over `docA` runs. -/
def db0 : Db :=
  [("z.txt", "zz".data)]

/-- The state `ensure_indexed` (core.py) reaches from an empty cache and
`db0` over the one-document workspace `[docA]`. -/
def c8run : CoreRunState :=
  { cards := [coreCardA],
    cache := [("a.txt.json", CacheEntry.ok coreCardA)],
    db := [("z.txt", "zz".data), ("a.txt", "hi".data)],
    synthCalls := 1 }

end Sal

/-! ## Theorems -/

namespace Sal

/-- C2: the staleness check returns true exactly when no cached card file
exists, or the cached card cannot be parsed, or the document's current
modification time is strictly greater than the recorded `_mtime` (read as 0
when the field is absent, see `Option.getD`); and immediately after storing a
card stamped with the document's current modification time, the check is
false until the modification time advances strictly beyond the stored value. -/
theorem isStale_spec (d : Document) (cache : Cache) :
    (_is_stale d cache = true ↔
      cacheLookup cache (cardName d) = none ∨
      cacheLookup cache (cardName d) = some .corrupt ∨
      ∃ c, cacheLookup cache (cardName d) = some (.ok c) ∧ c.mtime.getD 0 < d.mtime)
    ∧ ∀ (c : Card) (m : Nat),
      _is_stale { d with mtime := m }
          (cacheStore (cardName d) (.ok { c with mtime := some d.mtime }) cache)
        = decide (d.mtime < m) := by
  constructor
  · cases h : cacheLookup cache (cardName d) with
    | none => simp [_is_stale, h]
    | some e =>
      cases e with
      | corrupt => simp [_is_stale, h]
      | ok c => simp [_is_stale, h]
  · intro c m
    simp [_is_stale, cacheStore, cacheLookup, cardName]

/-- C10: a cached card that parses but lacks `_mtime` is read back with
recorded time 0, so a document with positive modification time is stale and
the next `ensure_indexed` pass makes a synthesis call for it. -/
theorem missingMtimeIsStale (d : Document) (cache : Cache) (c : Card)
    (hl : cacheLookup cache (cardName d) = some (.ok c))
    (hm : c.mtime = none) (hpos : 0 < d.mtime) :
    _is_stale d cache = true ∧
    ∀ (oracle : Oracle) (ds : List Document),
      0 < (ensureIndexedSal oracle (d :: ds) cache).synthCalls := by
  have hst : _is_stale d cache = true := by simp [_is_stale, hl, hm, hpos]
  refine ⟨hst, fun oracle ds => ?_⟩
  simp only [ensureIndexedSal, hst, if_true]
  cases salIndexOne oracle d <;> simp

/-- Witness for C10: the concrete mtime-less cached card of `cacheNoMtime`
makes `docA` stale and re-synthesized. -/
theorem missingMtimeIsStale_witness :
    _is_stale docA cacheNoMtime = true ∧
    0 < (ensureIndexedSal oracleOkP [docA] cacheNoMtime).synthCalls := by
  have h := missingMtimeIsStale docA cacheNoMtime cardNoMtime (by decide) (by decide)
    (by decide)
  exact ⟨h.1, h.2 oracleOkP []⟩

/-- C4: a query the search backend rejects (`sqlite3.OperationalError`) is
surfaced by `Search` as the structured result
`{query, results: [], error: "invalid query syntax"}`; no exception escapes
(`searchMcp` is a total function into `SearchResponse`). -/
theorem searchInvalidQueryShape (backend : SearchBackend) (q : String) (n : Nat)
    (e : Unit) (h : backend q n = .error e) :
    searchMcp backend q n =
      { query := q, results := [], error := some "invalid query syntax" } := by
  simp [searchMcp, h]

/-- Witness for C4 at the always-failing backend. -/
theorem searchInvalidQueryShape_witness :
    searchMcp badBackend "*" 5 =
      { query := "*", results := [], error := some "invalid query syntax" } :=
  searchInvalidQueryShape badBackend "*" 5 () rfl

/-- C5: for an existing document read without a page argument, both
`read_document` (sal.py) and
`Read` (mcp.py) return content over 8,000 characters as exactly its first
8,000 characters followed by a marker telling the caller to use the page
parameter, and content of at most 8,000 characters unchanged. -/
theorem readTruncation (fs : String → Option FileEntry) (db : Db) (path : String)
    (f : FileEntry) (hf : fs path = some f) :
    (8000 < (extractText f).length →
      readDocumentSal fs path none
        = .ok path ((extractText f).take 8000 ++ READ_TRUNC_MARKER))
    ∧ ((extractText f).length ≤ 8000 →
      readDocumentSal fs path none = .ok path (extractText f))
    ∧ (8000 < (mcpBody db path f).length →
      readMcp fs db path none
        = .ok path ((mcpBody db path f).take 8000 ++ MCP_READ_TRUNC_MARKER))
    ∧ ((mcpBody db path f).length ≤ 8000 →
      readMcp fs db path none = .ok path (mcpBody db path f)) := by
  refine ⟨fun h => ?_, fun h => ?_, fun h => ?_, fun h => ?_⟩
  · simp [readDocumentSal, hf, truncRead, h]
  · simp [readDocumentSal, hf, truncRead, Nat.not_lt.mpr h]
  · simp [readMcp, hf, truncRead, h]
  · simp [readMcp, hf, truncRead, Nat.not_lt.mpr h]

/-- Witness for C5 on the concrete one-file workspace `fsTxt`. -/
theorem readTruncation_witness :
    readDocumentSal fsTxt "doc.txt" none = .ok "doc.txt" (extractText fTxt) ∧
    readMcp fsTxt [] "doc.txt" none = .ok "doc.txt" (mcpBody [] "doc.txt" fTxt) := by
  have h := readTruncation fsTxt [] "doc.txt" fTxt (by decide)
  exact ⟨h.2.1 (by decide), h.2.2.2 (by decide)⟩

/-- C6 (amended): sal.py `_index_one` sends text longer than 15,000
characters as exactly its first 15,000 characters with the truncation marker
appended, and shorter text unchanged; core.py `_index_one` caps at the first
15,000 characters without appending any marker. -/
theorem synthTruncation (c : Text) :
    (15000 < c.length →
      synthInput c = c.take 15000 ++ SYNTH_TRUNC_MARKER
        ∧ synthInputCore c = c.take 15000)
    ∧ (c.length ≤ 15000 → synthInput c = c ∧ synthInputCore c = c) := by
  constructor
  · intro h
    exact ⟨by simp [synthInput, h], rfl⟩
  · intro h
    exact ⟨by simp [synthInput, Nat.not_lt.mpr h], by
      simp [synthInputCore, List.take_of_length_le h]⟩

/-- Counterexample for C6 as stated: on a 15,001-character text, the core.py
synthesizer's input is the bare 15,000-character cap, not the cap followed by
a truncation marker. -/
theorem synthTruncation_counterexample :
    15000 < (List.replicate 15001 'a').length ∧
    synthInputCore (List.replicate 15001 'a')
      ≠ (List.replicate 15001 'a').take 15000 ++ SYNTH_TRUNC_MARKER := by
  constructor
  · rw [List.length_replicate]
    norm_num
  · intro h
    have hm : SYNTH_TRUNC_MARKER.length = 13 := rfl
    have hl := congrArg List.length h
    simp only [synthInputCore, List.length_take, List.length_append,
      List.length_replicate, hm] at hl
    omega

/-- Witness for C6's amended theorem at a one-character text. -/
theorem synthTruncation_witness :
    synthInput "hi".data = "hi".data ∧ synthInputCore "hi".data = "hi".data :=
  (synthTruncation "hi".data).2 (by decide)

/-- C7 (amended): on an existing PDF, an out-of-bounds page yields a
structured error from both variants — sal.py's message names the page count
(`doc has P pages`), mcp.py's does not — and a valid page yields exactly that
page's extracted text (when it is within the 8,000-character read cap). -/
theorem pdfPageBounds (fs : String → Option FileEntry) (db : Db) (path : String)
    (f : FileEntry) (p : Int) (hf : fs path = some f) (hpdf : f.isPdf = true) :
    (¬(0 ≤ p ∧ p < (f.pages.length : Int)) →
      readDocumentSal fs path (some p) = .err (salPageErr p f.pages.length) ∧
      readMcp fs db path (some p) = .err (mcpPageErr p) ∧
      ∃ l r, salPageErr p f.pages.length = l ++ (toString f.pages.length).data ++ r)
    ∧ ((0 ≤ p ∧ p < (f.pages.length : Int)) →
      readDocumentSal fs path (some p)
        = .ok path (truncRead READ_TRUNC_MARKER (f.pages.getD p.toNat [])) ∧
      readMcp fs db path (some p)
        = .ok path (truncRead MCP_READ_TRUNC_MARKER (f.pages.getD p.toNat [])))
    ∧ ∀ t : Text, t.length ≤ 8000 →
      truncRead READ_TRUNC_MARKER t = t ∧ truncRead MCP_READ_TRUNC_MARKER t = t := by
  refine ⟨fun h => ?_, fun hin => ?_, fun t hlen => ?_⟩
  · refine ⟨by simp [readDocumentSal, hf, hpdf, h], by simp [readMcp, hf, hpdf, h], ?_⟩
    refine ⟨("Page " ++ toString p ++ " out of range (doc has ").data, " pages)".data, ?_⟩
    simp [salPageErr, String.data_append]
  · exact ⟨by simp [readDocumentSal, hf, hpdf, hin], by simp [readMcp, hf, hpdf, hin]⟩
  · constructor <;> (unfold truncRead; rw [if_neg (Nat.not_lt.mpr hlen)])

/-- Counterexample for C7 as stated: requesting page 5 of the two-page
`doc.pdf` through mcp.py's `Read` yields the error message
`"Page 5 out of range"`, in which the valid bound 2 does not occur (the
character `2` is absent). -/
theorem pdfPageBounds_counterexample :
    fPdf2.pages.length = 2 ∧
    readMcp fsPdf [] "doc.pdf" (some 5) = .err (mcpPageErr 5) ∧
    ('2' ∈ mcpPageErr 5 → False) := by
  refine ⟨rfl, rfl, by decide⟩

/-- Witness for C7's amended theorem: the out-of-range request on `fsPdf`. -/
theorem pdfPageBounds_witness :
    readDocumentSal fsPdf "doc.pdf" (some 5) = .err (salPageErr 5 2) ∧
    readMcp fsPdf [] "doc.pdf" (some 5) = .err (mcpPageErr 5) := by
  have h := (pdfPageBounds fsPdf [] "doc.pdf" fPdf2 5 (by decide) (by decide)).1
    (by decide)
  exact ⟨h.1, h.2.1⟩

/-- C9 (amended): on a successful synthesis call, sal.py's `_index_one`
injects both `path` (relative to the workspace) and `_mtime` (the document's
current modification time) into the decoded card; core.py's `_index_one`
injects only `path` and leaves `_mtime` untouched. -/
theorem cardInjection (d : Document) (o₁ o₂ : Oracle) (raw₁ raw₂ : Card)
    (h₁ : o₁ (synthMessage d) = .ok raw₁)
    (h₂ : o₂ (synthMessageCore d) = .ok raw₂) :
    salIndexOne o₁ d = .ok { raw₁ with path := some d.relPath, mtime := some d.mtime } ∧
    coreIndexOne o₂ d = .ok { raw₂ with path := some d.relPath } := by
  constructor
  · simp [salIndexOne, h₁]
  · simp [coreIndexOne, h₂]

/-- Counterexample for C9 as stated: core.py's `_index_one` on `docA`
(mtime 1) yields a card whose `_mtime` field is absent, not the document's
modification time. -/
theorem cardInjection_counterexample :
    coreIndexOne oracleOkP docA = .ok coreCardA ∧
    coreCardA.mtime ≠ some docA.mtime := by
  exact ⟨rfl, by decide⟩

/-- Witness for C9's amended theorem on `docA` with the constant oracle. -/
theorem cardInjection_witness :
    salIndexOne oracleOkP docA
      = .ok { cardP with path := some docA.relPath, mtime := some docA.mtime } ∧
    coreIndexOne oracleOkP docA = .ok { cardP with path := some docA.relPath } :=
  cardInjection docA oracleOkP oracleOkP cardP cardP rfl rfl

end Sal

/-! ### Cache and run lemmas -/

namespace Sal

theorem cacheLookup_store_self (k : String) (e : CacheEntry) (c : Cache) :
    cacheLookup (cacheStore k e c) k = some e := by
  simp [cacheStore, cacheLookup]

theorem cacheLookup_store_ne {k k' : String} (e : CacheEntry) (c : Cache)
    (h : k ≠ k') : cacheLookup (cacheStore k e c) k' = cacheLookup c k' := by
  simp [cacheStore, cacheLookup, h]

theorem isStale_of_lookup_eq {d : Document} {c₁ c₂ : Cache}
    (h : cacheLookup c₁ (cardName d) = cacheLookup c₂ (cardName d)) :
    _is_stale d c₁ = _is_stale d c₂ := by
  unfold _is_stale
  rw [h]

theorem loadCached_of_lookup_eq {c₁ c₂ : Cache} {k : String}
    (h : cacheLookup c₁ k = cacheLookup c₂ k) :
    loadCached c₁ k = loadCached c₂ k := by
  unfold loadCached
  rw [h]

/-- A pass of sal.py `ensure_indexed` writes only card files of the documents
it visits: any other key's entry is untouched. -/
theorem salRun_lookup_of_not_mem (oracle : Oracle) (ds : List Document)
    (cache : Cache) (k : String) (hk : k ∉ ds.map cardName) :
    cacheLookup (ensureIndexedSal oracle ds cache).cache k = cacheLookup cache k := by
  induction ds generalizing cache with
  | nil => rfl
  | cons d ds ih =>
    simp only [List.map_cons, List.mem_cons, not_or] at hk
    obtain ⟨hne, hk'⟩ := hk
    cases hs : _is_stale d cache with
    | false =>
      simp only [ensureIndexedSal, hs, Bool.false_eq_true, if_false]
      exact ih cache hk'
    | true =>
      simp only [ensureIndexedSal, hs, if_true]
      cases ho : salIndexOne oracle d with
      | error e => exact ih cache hk'
      | ok card =>
        rw [ih _ hk', cacheLookup_store_ne _ _ (Ne.symm hne)]

/-- Unfolding of sal.py's pass at a stale head whose synthesis fails. -/
theorem salRun_cons_stale_err {oracle : Oracle} {d : Document} {cache : Cache}
    {e : Unit} (ds : List Document) (hs : _is_stale d cache = true)
    (ho : salIndexOne oracle d = .error e) :
    ensureIndexedSal oracle (d :: ds) cache =
      { cards := (ensureIndexedSal oracle ds cache).cards,
        cache := (ensureIndexedSal oracle ds cache).cache,
        synthCalls := (ensureIndexedSal oracle ds cache).synthCalls + 1 } := by
  simp [ensureIndexedSal, hs, ho]

/-- Unfolding of sal.py's pass at a stale head whose synthesis succeeds. -/
theorem salRun_cons_stale_ok {oracle : Oracle} {d : Document} {cache : Cache}
    {card : Card} (ds : List Document) (hs : _is_stale d cache = true)
    (ho : salIndexOne oracle d = .ok card) :
    ensureIndexedSal oracle (d :: ds) cache =
      { cards := card ::
          (ensureIndexedSal oracle ds (cacheStore (cardName d) (.ok card) cache)).cards,
        cache :=
          (ensureIndexedSal oracle ds (cacheStore (cardName d) (.ok card) cache)).cache,
        synthCalls :=
          (ensureIndexedSal oracle ds (cacheStore (cardName d) (.ok card) cache)).synthCalls
            + 1 } := by
  simp [ensureIndexedSal, hs, ho]

/-- Unfolding of sal.py's pass at a fresh (not stale) head. -/
theorem salRun_cons_fresh {oracle : Oracle} {d : Document} {cache : Cache}
    (ds : List Document) (hs : _is_stale d cache = false) :
    ensureIndexedSal oracle (d :: ds) cache =
      { cards := loadCached cache (cardName d) :: (ensureIndexedSal oracle ds cache).cards,
        cache := (ensureIndexedSal oracle ds cache).cache,
        synthCalls := (ensureIndexedSal oracle ds cache).synthCalls } := by
  simp [ensureIndexedSal, hs]

/-- A pass of sal.py `ensure_indexed` over concatenated file lists is the
pass over the first list followed by the pass over the second from the
resulting cache; cards and synthesis-call counts add up. -/
theorem salRun_append (oracle : Oracle) (xs ys : List Document) (cache : Cache) :
    ensureIndexedSal oracle (xs ++ ys) cache =
      { cards := (ensureIndexedSal oracle xs cache).cards
          ++ (ensureIndexedSal oracle ys (ensureIndexedSal oracle xs cache).cache).cards,
        cache := (ensureIndexedSal oracle ys (ensureIndexedSal oracle xs cache).cache).cache,
        synthCalls := (ensureIndexedSal oracle xs cache).synthCalls
          + (ensureIndexedSal oracle ys (ensureIndexedSal oracle xs cache).cache).synthCalls } := by
  induction xs generalizing cache with
  | nil => simp [ensureIndexedSal]
  | cons d xs ih =>
    cases hs : _is_stale d cache with
    | false =>
      rw [List.cons_append, salRun_cons_fresh (xs ++ ys) hs, salRun_cons_fresh xs hs,
        ih cache]
      simp [SalRunResult.mk.injEq]
    | true =>
      cases ho : salIndexOne oracle d with
      | error e =>
        rw [List.cons_append, salRun_cons_stale_err (xs ++ ys) hs ho,
          salRun_cons_stale_err xs hs ho, ih cache]
        simp [SalRunResult.mk.injEq]
        omega
      | ok card =>
        rw [List.cons_append, salRun_cons_stale_ok (xs ++ ys) hs ho,
          salRun_cons_stale_ok xs hs ho, ih (cacheStore (cardName d) (.ok card) cache)]
        simp [SalRunResult.mk.injEq]
        omega

end Sal

namespace Sal

/-- C3 (amended): in sal.py's `ensure_indexed`, a synthesis failure for one
stale document is caught per-document — the pass returns exactly the cards
(and final cache) it would produce with that document absent, with one more
attempted synthesis call — so the remaining documents are still processed.
(In the core.py variant the failure instead aborts the pass, see the
counterexample.) -/
theorem salFailureIsolation (oracle : Oracle) (ds₁ ds₂ : List Document)
    (b : Document) (cache : Cache)
    (hfail : oracle (synthMessage b) = .error ())
    (hstale : _is_stale b (ensureIndexedSal oracle ds₁ cache).cache = true) :
    (ensureIndexedSal oracle (ds₁ ++ b :: ds₂) cache).cards
        = (ensureIndexedSal oracle (ds₁ ++ ds₂) cache).cards
    ∧ (ensureIndexedSal oracle (ds₁ ++ b :: ds₂) cache).cache
        = (ensureIndexedSal oracle (ds₁ ++ ds₂) cache).cache
    ∧ (ensureIndexedSal oracle (ds₁ ++ b :: ds₂) cache).synthCalls
        = (ensureIndexedSal oracle (ds₁ ++ ds₂) cache).synthCalls + 1 := by
  have hio : salIndexOne oracle b = .error () := by
    simp [salIndexOne, hfail]
  rw [salRun_append oracle ds₁ (b :: ds₂) cache, salRun_append oracle ds₁ ds₂ cache,
    salRun_cons_stale_err ds₂ hstale hio]
  refine ⟨rfl, rfl, ?_⟩
  simp
  omega

/-- Witness for C3's amended theorem: with `dBad`'s synthesis failing, the
pass over `[dBad, dGood]` produces the very cards of the pass over
`[dGood]`, with one extra synthesis attempt. -/
theorem salFailureIsolation_witness :
    (ensureIndexedSal oracleFailBadSal ([] ++ dBad :: [dGood]) []).cards
        = (ensureIndexedSal oracleFailBadSal ([] ++ [dGood]) []).cards
    ∧ (ensureIndexedSal oracleFailBadSal ([] ++ dBad :: [dGood]) []).cache
        = (ensureIndexedSal oracleFailBadSal ([] ++ [dGood]) []).cache
    ∧ (ensureIndexedSal oracleFailBadSal ([] ++ dBad :: [dGood]) []).synthCalls
        = (ensureIndexedSal oracleFailBadSal ([] ++ [dGood]) []).synthCalls + 1 :=
  salFailureIsolation oracleFailBadSal [] [dGood] dBad [] rfl rfl

/-- Counterexample for C3 as stated: in core.py's `ensure_indexed` nothing
catches a synthesis failure, so with `dBad`'s synthesis failing the whole
pass over `[dBad, dGood]` aborts (`Except.error`) and `dGood` is never
indexed. -/
theorem coreFailureAborts_counterexample :
    ensureIndexedCore oracleFailBad [dBad, dGood] [] [] = .error () := rfl

end Sal

namespace Sal

/-- After a pass in which every stale document's synthesis succeeded (given
distinct document file names), a second sal.py pass from the resulting cache
loads every card from the cache: same cards, same cache, zero synthesis. -/
theorem salIdem_aux (oracle : Oracle) (docs : List Document) (cache : Cache)
    (hnd : (docs.map cardName).Nodup)
    (hok : ∀ d ∈ docs,
      _is_stale d cache = false ∨ ∃ c, oracle (synthMessage d) = .ok c) :
    ensureIndexedSal oracle docs (ensureIndexedSal oracle docs cache).cache
      = { cards := (ensureIndexedSal oracle docs cache).cards,
          cache := (ensureIndexedSal oracle docs cache).cache,
          synthCalls := 0 } := by
  induction docs generalizing cache with
  | nil => rfl
  | cons d ds ih =>
    rw [List.map_cons, List.nodup_cons] at hnd
    obtain ⟨hmem, hnd'⟩ := hnd
    cases hs : _is_stale d cache with
    | false =>
      have hok' : ∀ d' ∈ ds,
          _is_stale d' cache = false ∨ ∃ c', oracle (synthMessage d') = .ok c' :=
        fun d' hd' => hok d' (List.mem_cons_of_mem d hd')
      have hlook : cacheLookup (ensureIndexedSal oracle ds cache).cache (cardName d)
          = cacheLookup cache (cardName d) :=
        salRun_lookup_of_not_mem oracle ds cache _ hmem
      have hs2 : _is_stale d (ensureIndexedSal oracle ds cache).cache = false :=
        (isStale_of_lookup_eq hlook).trans hs
      have hload : loadCached (ensureIndexedSal oracle ds cache).cache (cardName d)
          = loadCached cache (cardName d) :=
        loadCached_of_lookup_eq hlook
      rw [salRun_cons_fresh ds hs]
      dsimp only
      rw [salRun_cons_fresh ds hs2, hload, ih cache hnd' hok']
    | true =>
      obtain ⟨c, hc⟩ := (hok d (List.mem_cons_self d ds)).resolve_left (by simp [hs])
      have hio : salIndexOne oracle d
          = .ok { c with path := some d.relPath, mtime := some d.mtime } := by
        simp [salIndexOne, hc]
      have hok' : ∀ d' ∈ ds,
          _is_stale d' (cacheStore (cardName d)
              (.ok { c with path := some d.relPath, mtime := some d.mtime }) cache) = false
            ∨ ∃ c', oracle (synthMessage d') = .ok c' := by
        intro d' hd'
        rcases hok d' (List.mem_cons_of_mem d hd') with h | h
        · left
          have hne : cardName d ≠ cardName d' := by
            intro hEq
            exact hmem (hEq ▸ List.mem_map_of_mem cardName hd')
          rw [isStale_of_lookup_eq (cacheLookup_store_ne _ _ hne)]
          exact h
        · exact Or.inr h
      have hlook : cacheLookup
          (ensureIndexedSal oracle ds (cacheStore (cardName d)
            (.ok { c with path := some d.relPath, mtime := some d.mtime }) cache)).cache
          (cardName d)
          = some (.ok { c with path := some d.relPath, mtime := some d.mtime }) := by
        rw [salRun_lookup_of_not_mem oracle ds _ _ hmem]
        exact cacheLookup_store_self _ _ _
      have hs2 : _is_stale d
          (ensureIndexedSal oracle ds (cacheStore (cardName d)
            (.ok { c with path := some d.relPath, mtime := some d.mtime }) cache)).cache
          = false := by
        simp [_is_stale, hlook]
      have hload : loadCached
          (ensureIndexedSal oracle ds (cacheStore (cardName d)
            (.ok { c with path := some d.relPath, mtime := some d.mtime }) cache)).cache
          (cardName d)
          = { c with path := some d.relPath, mtime := some d.mtime } := by
        simp [loadCached, hlook]
      rw [salRun_cons_stale_ok ds hs hio]
      dsimp only
      rw [salRun_cons_fresh ds hs2, hload, ih _ hnd' hok']

end Sal

namespace Sal

theorem dbLookup_append (db₁ db₂ : Db) (k : String) :
    dbLookup (db₁ ++ db₂) k =
      match dbLookup db₁ k with
      | some b => some b
      | none => dbLookup db₂ k := by
  induction db₁ with
  | nil => rfl
  | cons kv rest ih =>
    obtain ⟨k', b⟩ := kv
    by_cases h : k' = k
    · simp [dbLookup, h]
    · simp [dbLookup, h, ih]

theorem dbLookup_eq_none_iff (db : Db) (p : String) :
    dbLookup db p = none ↔ p ∉ db.map Prod.fst := by
  induction db with
  | nil => simp [dbLookup]
  | cons kv rest ih =>
    obtain ⟨k, b⟩ := kv
    by_cases h : k = p
    · subst h
      simp [dbLookup]
    · simp [dbLookup, h, ih, Ne.symm h]

theorem dbContains_insertIfAbsent_self (p : String) (b : Text) (db : Db) :
    dbContains (dbInsertIfAbsent p b db) p = true := by
  unfold dbInsertIfAbsent
  cases hc : dbContains db p with
  | true => simpa using hc
  | false =>
    have hnone : dbLookup db p = none := by
      cases hl : dbLookup db p with
      | none => rfl
      | some v =>
        unfold dbContains at hc
        rw [hl] at hc
        simp at hc
    simp only [Bool.false_eq_true, if_false, dbContains, dbLookup_append, hnone]
    simp [dbLookup]

theorem dbLookup_insertIfAbsent_mono {db : Db} {q : String} {b : Text}
    (h : dbLookup db q = some b) (p : String) (body : Text) :
    dbLookup (dbInsertIfAbsent p body db) q = some b := by
  unfold dbInsertIfAbsent
  cases hc : dbContains db p with
  | true => exact h
  | false =>
    simp only [Bool.false_eq_true, if_false]
    rw [dbLookup_append, h]

theorem dbContains_insertIfAbsent_mono {db : Db} {q : String}
    (h : dbContains db q = true) (p : String) (body : Text) :
    dbContains (dbInsertIfAbsent p body db) q = true := by
  unfold dbContains at h ⊢
  cases hl : dbLookup db q with
  | none => rw [hl] at h; simp at h
  | some b => rw [dbLookup_insertIfAbsent_mono hl p body]; rfl

theorem dbKeys_nodup_insertIfAbsent (p : String) (b : Text) (db : Db)
    (h : (db.map Prod.fst).Nodup) :
    ((dbInsertIfAbsent p b db).map Prod.fst).Nodup := by
  unfold dbInsertIfAbsent
  cases hc : dbContains db p with
  | true => simpa using h
  | false =>
    have hnone : dbLookup db p = none := by
      cases hl : dbLookup db p with
      | none => rfl
      | some v =>
        unfold dbContains at hc
        rw [hl] at hc
        simp at hc
    have hp : p ∉ db.map Prod.fst := (dbLookup_eq_none_iff db p).mp hnone
    simp [List.nodup_append, h, hp]

/-- A successful core.py pass never removes or overwrites a card file. -/
theorem coreRun_cache_mono (oracle : Oracle) (ds : List Document) (cache : Cache)
    (db : Db) (r : CoreRunState)
    (h : ensureIndexedCore oracle ds cache db = .ok r)
    (k : String) (e : CacheEntry) (hk : cacheLookup cache k = some e) :
    cacheLookup r.cache k = some e := by
  induction ds generalizing cache db r with
  | nil =>
    simp only [ensureIndexedCore, Except.ok.injEq] at h
    subst h
    exact hk
  | cons d ds ih =>
    cases hl : cacheLookup cache (cardName d) with
    | some entry =>
      cases entry with
      | corrupt => simp [ensureIndexedCore, hl] at h
      | ok c =>
        simp only [ensureIndexedCore, hl] at h
        cases hrec : ensureIndexedCore oracle ds cache
            (dbInsertIfAbsent d.relPath d.content db) with
        | error e2 => rw [hrec] at h; simp at h
        | ok r' =>
          rw [hrec] at h
          simp only [Except.ok.injEq] at h
          subst h
          exact ih cache _ r' hrec hk
    | none =>
      cases ho : coreIndexOne oracle d with
      | error e2 => simp [ensureIndexedCore, hl, ho] at h
      | ok card =>
        simp only [ensureIndexedCore, hl, ho] at h
        cases hrec : ensureIndexedCore oracle ds
            (cacheStore (cardName d) (.ok card) cache)
            (dbInsertIfAbsent d.relPath d.content db) with
        | error e2 => rw [hrec] at h; simp at h
        | ok r' =>
          rw [hrec] at h
          simp only [Except.ok.injEq] at h
          subst h
          have hne : cardName d ≠ k := by
            intro hEq
            rw [hEq, hk] at hl
            exact Option.noConfusion hl
          exact ih _ _ r' hrec (by rw [cacheLookup_store_ne _ _ hne]; exact hk)

/-- A successful core.py pass never removes or overwrites an fts5 row. -/
theorem coreRun_db_mono (oracle : Oracle) (ds : List Document) (cache : Cache)
    (db : Db) (r : CoreRunState)
    (h : ensureIndexedCore oracle ds cache db = .ok r)
    (q : String) (b : Text) (hq : dbLookup db q = some b) :
    dbLookup r.db q = some b := by
  induction ds generalizing cache db r with
  | nil =>
    simp only [ensureIndexedCore, Except.ok.injEq] at h
    subst h
    exact hq
  | cons d ds ih =>
    cases hl : cacheLookup cache (cardName d) with
    | some entry =>
      cases entry with
      | corrupt => simp [ensureIndexedCore, hl] at h
      | ok c =>
        simp only [ensureIndexedCore, hl] at h
        cases hrec : ensureIndexedCore oracle ds cache
            (dbInsertIfAbsent d.relPath d.content db) with
        | error e2 => rw [hrec] at h; simp at h
        | ok r' =>
          rw [hrec] at h
          simp only [Except.ok.injEq] at h
          subst h
          exact ih cache _ r' hrec (dbLookup_insertIfAbsent_mono hq _ _)
    | none =>
      cases ho : coreIndexOne oracle d with
      | error e2 => simp [ensureIndexedCore, hl, ho] at h
      | ok card =>
        simp only [ensureIndexedCore, hl, ho] at h
        cases hrec : ensureIndexedCore oracle ds
            (cacheStore (cardName d) (.ok card) cache)
            (dbInsertIfAbsent d.relPath d.content db) with
        | error e2 => rw [hrec] at h; simp at h
        | ok r' =>
          rw [hrec] at h
          simp only [Except.ok.injEq] at h
          subst h
          exact ih _ _ r' hrec (dbLookup_insertIfAbsent_mono hq _ _)

theorem coreRun_dbContains_mono (oracle : Oracle) (ds : List Document)
    (cache : Cache) (db : Db) (r : CoreRunState)
    (h : ensureIndexedCore oracle ds cache db = .ok r)
    (q : String) (hq : dbContains db q = true) :
    dbContains r.db q = true := by
  unfold dbContains at hq ⊢
  cases hl : dbLookup db q with
  | none => rw [hl] at hq; simp at hq
  | some b => rw [coreRun_db_mono oracle ds cache db r h q b hl]; rfl

end Sal

namespace Sal

/-- A successful core.py pass keeps the fts5 path column duplicate-free. -/
theorem coreRun_keys_nodup (oracle : Oracle) (ds : List Document) (cache : Cache)
    (db : Db) (r : CoreRunState)
    (h : ensureIndexedCore oracle ds cache db = .ok r)
    (hnd : (db.map Prod.fst).Nodup) :
    (r.db.map Prod.fst).Nodup := by
  induction ds generalizing cache db r with
  | nil =>
    simp only [ensureIndexedCore, Except.ok.injEq] at h
    subst h
    exact hnd
  | cons d ds ih =>
    cases hl : cacheLookup cache (cardName d) with
    | some entry =>
      cases entry with
      | corrupt => simp [ensureIndexedCore, hl] at h
      | ok c =>
        simp only [ensureIndexedCore, hl] at h
        cases hrec : ensureIndexedCore oracle ds cache
            (dbInsertIfAbsent d.relPath d.content db) with
        | error e2 => rw [hrec] at h; simp at h
        | ok r' =>
          rw [hrec] at h
          simp only [Except.ok.injEq] at h
          subst h
          exact ih cache _ r' hrec (dbKeys_nodup_insertIfAbsent _ _ _ hnd)
    | none =>
      cases ho : coreIndexOne oracle d with
      | error e2 => simp [ensureIndexedCore, hl, ho] at h
      | ok card =>
        simp only [ensureIndexedCore, hl, ho] at h
        cases hrec : ensureIndexedCore oracle ds
            (cacheStore (cardName d) (.ok card) cache)
            (dbInsertIfAbsent d.relPath d.content db) with
        | error e2 => rw [hrec] at h; simp at h
        | ok r' =>
          rw [hrec] at h
          simp only [Except.ok.injEq] at h
          subst h
          exact ih _ _ r' hrec (dbKeys_nodup_insertIfAbsent _ _ _ hnd)

/-- After a successful core.py pass, every visited document has an fts5 row. -/
theorem coreRun_contains_all (oracle : Oracle) (ds : List Document) (cache : Cache)
    (db : Db) (r : CoreRunState)
    (h : ensureIndexedCore oracle ds cache db = .ok r) :
    ∀ d ∈ ds, dbContains r.db d.relPath = true := by
  induction ds generalizing cache db r with
  | nil => intro d hd; cases hd
  | cons d ds ih =>
    intro d' hd'
    cases hl : cacheLookup cache (cardName d) with
    | some entry =>
      cases entry with
      | corrupt => simp [ensureIndexedCore, hl] at h
      | ok c =>
        simp only [ensureIndexedCore, hl] at h
        cases hrec : ensureIndexedCore oracle ds cache
            (dbInsertIfAbsent d.relPath d.content db) with
        | error e2 => rw [hrec] at h; simp at h
        | ok r' =>
          rw [hrec] at h
          simp only [Except.ok.injEq] at h
          subst h
          rcases List.mem_cons.mp hd' with hEq | hmem
          · subst hEq
            exact coreRun_dbContains_mono oracle ds cache _ r' hrec _
              (dbContains_insertIfAbsent_self _ _ _)
          · exact ih cache _ r' hrec d' hmem
    | none =>
      cases ho : coreIndexOne oracle d with
      | error e2 => simp [ensureIndexedCore, hl, ho] at h
      | ok card =>
        simp only [ensureIndexedCore, hl, ho] at h
        cases hrec : ensureIndexedCore oracle ds
            (cacheStore (cardName d) (.ok card) cache)
            (dbInsertIfAbsent d.relPath d.content db) with
        | error e2 => rw [hrec] at h; simp at h
        | ok r' =>
          rw [hrec] at h
          simp only [Except.ok.injEq] at h
          subst h
          rcases List.mem_cons.mp hd' with hEq | hmem
          · subst hEq
            exact coreRun_dbContains_mono oracle ds _ _ r' hrec _
              (dbContains_insertIfAbsent_self _ _ _)
          · exact ih _ _ r' hrec d' hmem

/-- After a successful core.py pass, a second pass from the resulting cache
and fts5 table finds every card file present and every row present: it
returns the same cards, leaves cache and table unchanged, and synthesizes
nothing. -/
theorem coreIdem_aux (oracle : Oracle) (ds : List Document) (cache : Cache)
    (db : Db) (r : CoreRunState)
    (h : ensureIndexedCore oracle ds cache db = .ok r) :
    ensureIndexedCore oracle ds r.cache r.db
      = .ok { cards := r.cards, cache := r.cache, db := r.db, synthCalls := 0 } := by
  induction ds generalizing cache db r with
  | nil =>
    simp only [ensureIndexedCore, Except.ok.injEq] at h
    subst h
    rfl
  | cons d ds ih =>
    cases hl : cacheLookup cache (cardName d) with
    | some entry =>
      cases entry with
      | corrupt => simp [ensureIndexedCore, hl] at h
      | ok c =>
        simp only [ensureIndexedCore, hl] at h
        cases hrec : ensureIndexedCore oracle ds cache
            (dbInsertIfAbsent d.relPath d.content db) with
        | error e2 => rw [hrec] at h; simp at h
        | ok r' =>
          rw [hrec] at h
          simp only [Except.ok.injEq] at h
          subst h
          have hlk : cacheLookup r'.cache (cardName d) = some (.ok c) :=
            coreRun_cache_mono oracle ds cache _ r' hrec _ _ hl
          have hcont : dbContains r'.db d.relPath = true :=
            coreRun_dbContains_mono oracle ds cache _ r' hrec _
              (dbContains_insertIfAbsent_self _ _ _)
          have hins : dbInsertIfAbsent d.relPath d.content r'.db = r'.db := by
            simp [dbInsertIfAbsent, hcont]
          simp only [ensureIndexedCore, hlk, hins, ih cache _ r' hrec]
    | none =>
      cases ho : coreIndexOne oracle d with
      | error e2 => simp [ensureIndexedCore, hl, ho] at h
      | ok card =>
        simp only [ensureIndexedCore, hl, ho] at h
        cases hrec : ensureIndexedCore oracle ds
            (cacheStore (cardName d) (.ok card) cache)
            (dbInsertIfAbsent d.relPath d.content db) with
        | error e2 => rw [hrec] at h; simp at h
        | ok r' =>
          rw [hrec] at h
          simp only [Except.ok.injEq] at h
          subst h
          have hlk : cacheLookup r'.cache (cardName d) = some (.ok card) :=
            coreRun_cache_mono oracle ds _ _ r' hrec _ _
              (cacheLookup_store_self _ _ _)
          have hcont : dbContains r'.db d.relPath = true :=
            coreRun_dbContains_mono oracle ds _ _ r' hrec _
              (dbContains_insertIfAbsent_self _ _ _)
          have hins : dbInsertIfAbsent d.relPath d.content r'.db = r'.db := by
            simp [dbInsertIfAbsent, hcont]
          simp only [ensureIndexedCore, hlk, hins, ih _ _ r' hrec]

end Sal

namespace Sal

/-- C1 (amended): running "ensure indexed" twice with no file changes
returns the same card sequence and performs zero synthesis calls on the
second run — in sal.py provided the located documents have pairwise distinct
file names (cards are keyed by file name, so same-named files in different
subdirectories share one card file: see the counterexample) and every stale
document's synthesis succeeded on the first run; in core.py (whose
non-recursive locator makes file names unique) whenever the first run
succeeded. -/
theorem ensureIndexed_idempotent :
    (∀ (oracle : Oracle) (docs : List Document) (cache : Cache),
      (docs.map cardName).Nodup →
      (∀ d ∈ docs, _is_stale d cache = false ∨ ∃ c, oracle (synthMessage d) = .ok c) →
      (ensureIndexedSal oracle docs (ensureIndexedSal oracle docs cache).cache).cards
          = (ensureIndexedSal oracle docs cache).cards
        ∧ (ensureIndexedSal oracle docs
            (ensureIndexedSal oracle docs cache).cache).synthCalls = 0)
    ∧ ∀ (oracle : Oracle) (docs : List Document) (cache : Cache) (db : Db)
        (r : CoreRunState),
      ensureIndexedCore oracle docs cache db = .ok r →
      ensureIndexedCore oracle docs r.cache r.db
        = .ok { cards := r.cards, cache := r.cache, db := r.db, synthCalls := 0 } := by
  constructor
  · intro oracle docs cache hnd hok
    rw [salIdem_aux oracle docs cache hnd hok]
    exact ⟨rfl, rfl⟩
  · exact fun oracle docs cache db r h => coreIdem_aux oracle docs cache db r h

/-- Witness for C1 on the one-document workspace `[docA]`: both variants,
from empty caches, are idempotent with zero second-run synthesis. -/
theorem ensureIndexed_idempotent_witness :
    ((ensureIndexedSal oracleOkP [docA] (ensureIndexedSal oracleOkP [docA] []).cache).cards
        = (ensureIndexedSal oracleOkP [docA] []).cards
      ∧ (ensureIndexedSal oracleOkP [docA]
          (ensureIndexedSal oracleOkP [docA] []).cache).synthCalls = 0)
    ∧ ensureIndexedCore oracleOkP [docA] c8run.cache c8run.db
        = .ok { cards := c8run.cards, cache := c8run.cache, db := c8run.db,
                synthCalls := 0 } :=
  ⟨ensureIndexed_idempotent.1 oracleOkP [docA] [] (by decide)
      (fun d _ => Or.inr ⟨cardP, rfl⟩),
    ensureIndexed_idempotent.2 oracleOkP [docA] [] db0 c8run rfl⟩

/-- Counterexample for C1 as stated: under `resources/`, the two files
`a/x.txt` (mtime 1) and `b/x.txt` (mtime 2) collide on the card file
`x.txt.json`.  The first sal.py run completes successfully (both documents
synthesized, two cards), yet the second run returns a different card
sequence: `b/x.txt`'s card, stored last, is served for both. -/
theorem ensureIndexed_idempotent_counterexample :
    (ensureIndexedSal oracleOkP [docColA, docColB] []).cards.length = 2 ∧
    (ensureIndexedSal oracleOkP [docColA, docColB] []).synthCalls = 2 ∧
    (ensureIndexedSal oracleOkP [docColA, docColB]
        (ensureIndexedSal oracleOkP [docColA, docColB] []).cache).cards
      ≠ (ensureIndexedSal oracleOkP [docColA, docColB] []).cards := by
  refine ⟨rfl, rfl, by decide⟩

/-- C8: the fts5 index keeps at most one row per document path — the insert
in core.py's `ensure_indexed` is a no-op when a row for the path exists — so
across any successful pass an existing row's body is never updated (even if
the source file's content changed since it was inserted) and a
duplicate-free path column stays duplicate-free.  Preservation composes
across any sequence of passes. -/
theorem ftsInsertIfAbsent (oracle : Oracle) (docs : List Document) (cache : Cache)
    (db : Db) (r : CoreRunState)
    (h : ensureIndexedCore oracle docs cache db = .ok r) :
    (∀ (p : String) (body : Text) (db' : Db),
      dbContains db' p = true → dbInsertIfAbsent p body db' = db')
    ∧ (∀ (p : String) (b : Text), dbLookup db p = some b → dbLookup r.db p = some b)
    ∧ ((db.map Prod.fst).Nodup → (r.db.map Prod.fst).Nodup) := by
  refine ⟨fun p body db' hc => by simp [dbInsertIfAbsent, hc], ?_, ?_⟩
  · exact fun p b hb => coreRun_db_mono oracle docs cache db r h p b hb
  · exact fun hnd => coreRun_keys_nodup oracle docs cache db r h hnd

/-- Witness for C8 on the concrete pass recorded in `c8run`: the pre-existing
`z.txt` row is preserved verbatim, a second insert of `a.txt` is a no-op,
and the path column stays duplicate-free. -/
theorem ftsInsertIfAbsent_witness :
    dbInsertIfAbsent "a.txt" [] c8run.db = c8run.db ∧
    dbLookup c8run.db "z.txt" = some "zz".data ∧
    (c8run.db.map Prod.fst).Nodup := by
  have h := ftsInsertIfAbsent oracleOkP [docA] [] db0 c8run rfl
  exact ⟨h.1 "a.txt" [] c8run.db (by decide), h.2.1 "z.txt" "zz".data rfl,
    h.2.2 (by decide)⟩

end Sal
